import Mathlib

/-!
# Task-lifecycle pipeline: shallow embedding and verification

This file embeds the asynchronous task-lifecycle core of the repository —
the task lifecycle service (`TasksService`), the queue worker
(`TaskProcessorService.process` and its handlers), the overdue scanner
(`OverdueTasksService.checkOverdueTasks`) and the batch processor — and
proves the stated properties about them.

Modelling conventions:
* The persistent store is a `List Task`; `repository.save` replaces the row
  with the same id (or appends a fresh row).
* The external job queue is a `List EnqueuedJob` recording the enqueue calls
  the producers issue, together with the per-job options they pass.
* Timestamps (`Date` values) are `Nat` milliseconds; the store-managed
  `createdAt`/`updatedAt` columns are outside the model.
* Fallible operations return `Except String` results paired with the state
  after the call; a thrown exception leaves the state it was raised in.
-/

namespace TaskFlow

/-- The `TaskStatus` enum of the source (`task-status.enum.ts`); the raw values
mirror the member names, as used by the worker's enum-membership check. -/
inductive TaskStatus where
  | PENDING
  | IN_PROGRESS
  | COMPLETED
  | OVERDUE
deriving DecidableEq, Repr

/-- The status-enum membership test `Object.values(TaskStatus).includes(s)`
of the worker, returning the member a raw string denotes. -/
def taskStatusOfString (s : String) : Option TaskStatus :=
  if s = "PENDING" then some .PENDING
  else if s = "IN_PROGRESS" then some .IN_PROGRESS
  else if s = "COMPLETED" then some .COMPLETED
  else if s = "OVERDUE" then some .OVERDUE
  else none

/-- The `TaskPriority` enum of the source. -/
inductive TaskPriority where
  | LOW
  | MEDIUM
  | HIGH
deriving DecidableEq, Repr

/-- The `Task` entity: id, title, optional description, status, priority,
optional due date (ms timestamp) and owning user. -/
structure Task where
  id : String
  title : String
  description : Option String := none
  status : TaskStatus := .PENDING
  priority : TaskPriority := .MEDIUM
  dueDate : Option Nat := none
  userId : String
deriving DecidableEq, Repr

/-- Backoff options passed to `queue.add` (`{ type, delay }`). -/
structure BackoffOpts where
  kind : String
  delay : Nat
deriving DecidableEq, Repr

/-- Per-job options passed to `queue.add`: attempts, backoff policy,
success retention (`removeOnComplete: { age }`) and failure retention
(`removeOnFail`). -/
structure JobOptions where
  attempts : Nat
  backoff : Option BackoffOpts := none
  removeOnCompleteAge : Option Nat := none
  removeOnFail : Option Bool := none
  priority : Option Nat := none
deriving DecidableEq, Repr

/-- Payload of an enqueued job: `STATUS_UPDATE` jobs carry
`{ taskId, status }`, `OVERDUE_NOTIFICATION` jobs carry the whole task. -/
inductive JobPayload where
  | statusUpdate (taskId : String) (status : TaskStatus)
  | taskBody (task : Task)
deriving DecidableEq, Repr

/-- One enqueue call issued against the external queue: the job name, its
payload and the options passed (none when `queue.add` got no options). -/
structure EnqueuedJob where
  name : String
  payload : JobPayload
  opts : Option JobOptions := none
deriving DecidableEq, Repr

/-- State the lifecycle core acts on: the task store and the list of
enqueue calls issued so far. -/
structure ServiceState where
  store : List Task
  queue : List EnqueuedJob
deriving DecidableEq, Repr

/-- Model of `repository.save(task)`: replaces the row with `task.id` when one
exists, otherwise appends the new row. -/
def saveTask (t : Task) (store : List Task) : List Task :=
  if store.any (fun u => decide (u.id = t.id)) then
    store.map (fun u => if u.id = t.id then t else u)
  else
    store ++ [t]

/-- The `CreateTaskDto` shape: title and owner required, the rest optional. -/
structure CreateTaskDto where
  title : String
  description : Option String := none
  status : Option TaskStatus := none
  priority : Option TaskPriority := none
  dueDate : Option Nat := none
  userId : String
deriving DecidableEq, Repr

/-- The entity `repository.create(dto)` builds (absent status/priority fall
back to the entity column defaults), persisted with the generated id. -/
def taskOfCreateDto (newId : String) (dto : CreateTaskDto) : Task :=
  { id := newId
    title := dto.title
    description := dto.description
    status := dto.status.getD .PENDING
    priority := dto.priority.getD .MEDIUM
    dueDate := dto.dueDate
    userId := dto.userId }

/-- The `UpdateTaskDto` shape: every field optional. -/
structure UpdateTaskDto where
  title : Option String := none
  description : Option String := none
  status : Option TaskStatus := none
  priority : Option TaskPriority := none
  dueDate : Option Nat := none
deriving DecidableEq, Repr

/-- JavaScript truthiness of an optional string: `undefined` and `""` are
falsy (the source guards each field assignment with `if (dto.field)`). -/
def strTruthy : Option String → Bool
  | none => false
  | some s => !s.isEmpty

namespace TasksService

/-- Model of `TasksService.create`: builds the entity, persists it, then fire-and-forget
enqueues a `task-status-update` job `{ taskId, status }` with no options.
`enqueueOk` is the external queue's acceptance of that un-awaited, unchecked
call; nothing computed before it depends on it. -/
def create (newId : String) (dto : CreateTaskDto) (enqueueOk : Bool)
    (s : ServiceState) : Task × ServiceState :=
  let savedTask := taskOfCreateDto newId dto
  let store := saveTask savedTask s.store
  let queue :=
    if enqueueOk then
      s.queue ++ [{ name := "task-status-update"
                    payload := .statusUpdate savedTask.id savedTask.status
                    opts := none }]
    else s.queue
  (savedTask, { store := store, queue := queue })

/-- Model of `TasksService.findOne`: the row with the given id, or a
`NotFoundException` (the source's count-then-findOne pair collapses to one
lookup over the list store). -/
def findOne (id : String) (store : List Task) : Except String Task :=
  match store.find? (fun t => decide (t.id = id)) with
  | some t => .ok t
  | none => .error ("Task with ID " ++ id ++ " not found")

/-- The field-by-field mutation of `TasksService.update`: each assignment is
guarded by JS truthiness of the patch field, so a title or description given
as `""` is skipped; the guarded assignments touch pairwise distinct entity
columns, so the sequence is one record update. A present status, priority or
due date is always truthy (non-empty enum strings, `Date` objects). -/
def applyUpdate (dto : UpdateTaskDto) (t : Task) : Task :=
  { t with
    title := if strTruthy dto.title then dto.title.getD "" else t.title
    description := if strTruthy dto.description then dto.description else t.description
    status := dto.status.getD t.status
    priority := dto.priority.getD t.priority
    dueDate := match dto.dueDate with
      | some d => some d
      | none => t.dueDate }

/-- Model of `TasksService.update`: loads the task (NotFound propagates, state
untouched), applies the patch fields, persists, and enqueues one
`task-status-update` job exactly when the persisted status differs from the
original status. -/
def update (id : String) (dto : UpdateTaskDto) (s : ServiceState) :
    Except String Task × ServiceState :=
  match findOne id s.store with
  | .error e => (.error e, s)
  | .ok task =>
    let originalStatus := task.status
    let updatedTask := applyUpdate dto task
    let store := saveTask updatedTask s.store
    let queue :=
      if originalStatus ≠ updatedTask.status then
        s.queue ++ [{ name := "task-status-update"
                      payload := .statusUpdate updatedTask.id updatedTask.status
                      opts := none }]
      else s.queue
    (.ok updatedTask, { store := store, queue := queue })

/-- Model of `TasksService.updateStatus`: loads the task, sets the status, persists.
The source takes the status as a raw string and casts it unchecked; its only
caller, the worker, passes a validated enum member, which is what the
argument type records. -/
def updateStatus (id : String) (status : TaskStatus) (s : ServiceState) :
    Except String Task × ServiceState :=
  match findOne id s.store with
  | .error e => (.error e, s)
  | .ok task =>
    let t := { task with status := status }
    (.ok t, { s with store := saveTask t s.store })

end TasksService

/-- The untyped payload (`job.data`) of a delivered job as the worker reads
it: the status-update handler reads `.taskId` and `.status` (a raw string),
the overdue handler reads `.id` of the task record the producer enqueued
(`dataId` here). Absent properties are `none`. -/
structure RawJobData where
  taskId : Option String := none
  status : Option String := none
  dataId : Option String := none
deriving DecidableEq, Repr

/-- The result object a worker handler returns; fields absent from the
returned JS object are `none`. -/
structure ProcessResult where
  success : Bool
  error : Option String := none
  taskId : Option String := none
  newStatus : Option TaskStatus := none
  message : Option String := none
deriving DecidableEq, Repr

/-- JavaScript falsiness of an optional string: `!x` holds for an absent
property and for the empty string. -/
def jsFalsy : Option String → Bool
  | none => true
  | some s => s.isEmpty

namespace TaskProcessorService

/-- Model of `handleStatusUpdate`: rejects a payload with falsy `taskId` or `status`
or an out-of-enum status, otherwise calls `TasksService.updateStatus` (whose
NotFound propagates) and returns `{ success: true, taskId, newStatus }`. -/
def handleStatusUpdate (data : RawJobData) (s : ServiceState) :
    Except String ProcessResult × ServiceState :=
  if jsFalsy data.taskId || jsFalsy data.status then
    (.error "Missing required data", s)
  else
    match taskStatusOfString (data.status.getD "") with
    | none => (.error "Invalid status value", s)
    | some st =>
      match TasksService.updateStatus (data.taskId.getD "") st s with
      | (.error e, s1) => (.error e, s1)
      | (.ok task, s1) =>
        (.ok { success := true, taskId := some task.id, newStatus := some task.status }, s1)

/-- Model of `handleOverdueTasks`: calls `TasksService.update(job.data.id,
{ status: OVERDUE })` (an absent id interpolates as the string
`"undefined"`) and reports success once the status is persisted. -/
def handleOverdueTasks (data : RawJobData) (s : ServiceState) :
    Except String ProcessResult × ServiceState :=
  match TasksService.update (data.dataId.getD "undefined") { status := some .OVERDUE } s with
  | (.error e, s1) => (.error e, s1)
  | (.ok _, s1) =>
    (.ok { success := true, message := some "Overdue tasks processed" }, s1)

/-- Model of `TaskProcessorService.process`: dispatches on the job name; an unknown
name returns `{ success: false, error: 'Unknown job type' }` normally (the
job completes). Handler errors are logged and rethrown, which the `Except`
error propagation models. -/
def process (name : String) (data : RawJobData) (s : ServiceState) :
    Except String ProcessResult × ServiceState :=
  if name = "task-status-update" then
    handleStatusUpdate data s
  else if name = "overdue-tasks-notification" then
    handleOverdueTasks data s
  else
    (.ok { success := false, error := some "Unknown job type" }, s)

end TaskProcessorService

/-- Modelled from the spec: `TasksService.getOverdueTasks` is not among the
repository files (only its unit tests and its scanner call site are).
`findOverdue()`: "returns all Tasks where `dueDate` is strictly before
'now', irrespective of current `status`; pure read, no mutation" — a row
with no due date never compares before `now` (SQL `dueDate < :now`). -/
def getOverdueTasks (now : Nat) (store : List Task) : List Task :=
  store.filter (fun t =>
    match t.dueDate with
    | some d => decide (d < now)
    | none => false)

namespace OverdueTasksService

/-- The options `checkOverdueTasks` passes with every overdue-notification
job: 3 attempts, exponential backoff with 60000 ms base delay, completed
jobs kept 86400 s, failed jobs kept indefinitely. -/
def overdueJobOptions : JobOptions :=
  { attempts := 3
    backoff := some { kind := "exponential", delay := 60000 }
    removeOnCompleteAge := some 86400
    removeOnFail := some false
    priority := some 1 }

/-- One `overdue-tasks-notification` enqueue call of the scanner, carrying
the task itself as payload. -/
def overdueNotificationJob (t : Task) : EnqueuedJob :=
  { name := "overdue-tasks-notification"
    payload := .taskBody t
    opts := some overdueJobOptions }

/-- Model of `OverdueTasksService.checkOverdueTasks` (the hourly tick): queries the
overdue tasks, enqueues one notification job per task over the whole result
set, and logs the count found. Returns the state after the tick and the log
lines emitted. -/
def checkOverdueTasks (now : Nat) (s : ServiceState) :
    ServiceState × List String :=
  let overdueTasks := getOverdueTasks now s.store
  ({ s with queue := s.queue ++ overdueTasks.map overdueNotificationJob },
   ["Checking for overdue tasks...",
    "Found " ++ toString overdueTasks.length ++ " overdue tasks",
    "Overdue tasks check completed"])

end OverdueTasksService

/-- Outcome row of a batch call (`{taskId, success, result?|error?}`). -/
structure BatchOutcome where
  taskId : String
  success : Bool
  result : Option String := none
  error : Option String := none
deriving DecidableEq, Repr

/-- The two batch actions the controller admits. -/
inductive BatchAction where
  | complete
  | delete
deriving DecidableEq, Repr

/-- Per-action success message of a batch outcome. -/
def successMessage : BatchAction → String
  | .complete => "Task marked as completed"
  | .delete => "Task deleted"

/-- Modelled from the spec: step 1 of `batchProcess` — the single query
loading all tasks whose id is among the requested ids. -/
def foundTasks (store : List Task) (ids : List String) : List Task :=
  store.filter (fun t => decide (t.id ∈ ids))

/-- Ids of the tasks the batch lookup found. -/
def foundIds (store : List Task) (ids : List String) : List String :=
  (foundTasks store ids).map Task.id

/-- Modelled from the spec: step 2 of `batchProcess` — one
`{taskId, success:false, error:"Task not found"}` outcome per requested id
absent from the lookup result, computed before the bulk write. -/
def notFoundOutcomes (store : List Task) (ids : List String) : List BatchOutcome :=
  (ids.filter (fun i => decide (i ∉ foundIds store ids))).map
    (fun i => { taskId := i, success := false, error := some "Task not found" })

/-- Modelled from the spec: `TasksService.batchProcess` is not among the
repository files (only its controller call site and its unit tests are).
Steps per the spec: one lookup of the requested ids; not-found outcomes
synthesized first; then one bulk write over the found id set — status set
to COMPLETED for `complete`, rows removed for `delete`. `bulkError = some e`
models that single write throwing an error with message `e`: every found id
then gets `{success:false, error: e}` and the store is untouched;
`actingUserId` is accepted and never consulted. -/
def batchProcess (ids : List String) (action : BatchAction)
    (actingUserId : String) (bulkError : Option String) (s : ServiceState) :
    List BatchOutcome × ServiceState :=
  let _ := actingUserId
  let found := foundTasks s.store ids
  match bulkError with
  | some e =>
    (notFoundOutcomes s.store ids ++
      found.map (fun t => { taskId := t.id, success := false, error := some e }),
     s)
  | none =>
    let store :=
      match action with
      | .complete =>
        s.store.map (fun t =>
          if t.id ∈ foundIds s.store ids then { t with status := .COMPLETED } else t)
      | .delete =>
        s.store.filter (fun t => decide (t.id ∉ foundIds s.store ids))
    (notFoundOutcomes s.store ids ++
      found.map (fun t =>
        { taskId := t.id, success := true, result := some (successMessage action) }),
     { s with store := store })

/-! ## Helper lemmas -/

theorem saveTask_self_mem (t : Task) (store : List Task) : t ∈ saveTask t store := by
  unfold saveTask
  by_cases h : store.any (fun u => decide (u.id = t.id)) = true
  · rw [if_pos h]
    rcases List.any_eq_true.mp h with ⟨u, hu, hid⟩
    exact List.mem_map.mpr ⟨u, hu, by rw [if_pos (of_decide_eq_true hid)]⟩
  · rw [if_neg h]
    exact List.mem_append_right _ (List.mem_singleton.mpr rfl)

theorem saveTask_of_mem {t old : Task} {store : List Task}
    (hold : old ∈ store) (hid : old.id = t.id) :
    saveTask t store = store.map (fun u => if u.id = t.id then t else u) := by
  unfold saveTask
  rw [if_pos (List.any_eq_true.mpr ⟨old, hold, decide_eq_true hid⟩)]

theorem findOne_ok_mem {id : String} {store : List Task} {t : Task}
    (h : TasksService.findOne id store = Except.ok t) : t ∈ store ∧ t.id = id := by
  unfold TasksService.findOne at h
  cases hf : store.find? (fun u => decide (u.id = id)) with
  | none => rw [hf] at h; cases h
  | some u =>
    rw [hf] at h
    injection h with h
    subst h
    have hp := List.find?_some hf
    exact ⟨List.mem_of_find?_eq_some hf, of_decide_eq_true hp⟩

theorem findOne_of_absent {id : String} {store : List Task}
    (h : ∀ u ∈ store, u.id ≠ id) :
    TasksService.findOne id store = Except.error ("Task with ID " ++ id ++ " not found") := by
  unfold TasksService.findOne
  rw [List.find?_eq_none.mpr (fun u hu => by simpa using h u hu)]

/-! ## Witness fixtures -/

/-- A sample persisted task used by concrete witnesses. -/
def sampleTask1 : Task :=
  { id := "1", title := "Test Task", userId := "user-1" }

/-- A second sample persisted task. -/
def sampleTask2 : Task :=
  { id := "2", title := "Second Task", userId := "user-1" }

/-- A sample task already past its due date (timestamps in ms). -/
def sampleOverdueTask : Task :=
  { id := "3", title := "Late Task", userId := "user-1", dueDate := some 5 }

/-- A two-row store with no queue traffic yet. -/
def sampleState : ServiceState :=
  { store := [sampleTask1, sampleTask2], queue := [] }

/-- A store holding one overdue and one dateless task. -/
def sampleOverdueState : ServiceState :=
  { store := [sampleTask1, sampleOverdueTask], queue := [] }

/-! ## Claim theorems -/

/-- C3: every successful `create(input)` persists the new task and — when the
external queue accepts the fire-and-forget call — enqueues exactly one
`task-status-update` job whose `(taskId, status)` payload equals the
persisted task's id and status; the store write is authoritative: neither
the persisted store nor the returned task depends on the enqueue outcome. -/
theorem create_persists_and_enqueues_status_update
    (newId : String) (dto : CreateTaskDto) (enqueueOk : Bool) (s : ServiceState) :
    (TasksService.create newId dto enqueueOk s).1 ∈ (TasksService.create newId dto enqueueOk s).2.store
    ∧ (TasksService.create newId dto enqueueOk s).2.queue =
        s.queue ++ (if enqueueOk then
          [{ name := "task-status-update"
             payload := .statusUpdate (TasksService.create newId dto enqueueOk s).1.id
                          (TasksService.create newId dto enqueueOk s).1.status
             opts := none }] else [])
    ∧ (TasksService.create newId dto false s).2.store = (TasksService.create newId dto true s).2.store
    ∧ (TasksService.create newId dto false s).1 = (TasksService.create newId dto true s).1 := by
  refine ⟨saveTask_self_mem _ _, ?_, rfl, rfl⟩
  cases enqueueOk <;> simp [TasksService.create]

/-- C10: a delivered job whose name is neither `task-status-update` nor
`overdue-tasks-notification` makes `process` return
`{ success: false, error: 'Unknown job type' }` normally (no error raised,
so the queue completes the job) and leaves the state untouched. -/
theorem process_unknown_job_type_completes
    (name : String) (data : RawJobData) (s : ServiceState)
    (h1 : name ≠ "task-status-update") (h2 : name ≠ "overdue-tasks-notification") :
    TaskProcessorService.process name data s =
      (Except.ok { success := false, error := some "Unknown job type",
                   taskId := none, newStatus := none, message := none }, s) := by
  unfold TaskProcessorService.process
  rw [if_neg h1, if_neg h2]

/-- C10 witness: a concrete foreign job name completes without touching a
concrete store. -/
theorem process_unknown_job_type_completes_witness :
    TaskProcessorService.process "email-notification" {} sampleState =
      (Except.ok { success := false, error := some "Unknown job type",
                   taskId := none, newStatus := none, message := none }, sampleState) :=
  process_unknown_job_type_completes "email-notification" {} sampleState
    (by decide) (by decide)

/-- C6: one scanner tick enqueues exactly one `overdue-tasks-notification`
job per task of the overdue query result — carrying the task, with
3 attempts, exponential backoff at 60000 ms (60 s) base delay, completed
jobs retained 1 day (age 86400) and failed jobs retained indefinitely
(`removeOnFail: false`) — logs the count found, and writes nothing to the
store. -/
theorem checkOverdueTasks_enqueues_with_retry_options (now : Nat) (s : ServiceState) :
    (OverdueTasksService.checkOverdueTasks now s).1.store = s.store
    ∧ (OverdueTasksService.checkOverdueTasks now s).1.queue =
        s.queue ++ (getOverdueTasks now s.store).map (fun t =>
          { name := "overdue-tasks-notification"
            payload := .taskBody t
            opts := some { attempts := 3
                           backoff := some { kind := "exponential", delay := 60000 }
                           removeOnCompleteAge := some 86400
                           removeOnFail := some false
                           priority := some 1 } })
    ∧ ("Found " ++ toString (getOverdueTasks now s.store).length ++ " overdue tasks")
        ∈ (OverdueTasksService.checkOverdueTasks now s).2 := by
  refine ⟨rfl, rfl, ?_⟩
  simp [OverdueTasksService.checkOverdueTasks]

/-- C7: the scanner does not deduplicate across ticks: a second tick over an
unchanged overdue set appends a second, identical batch — at least two
enqueued notification jobs per still-overdue task, with no filtering against
the first run's jobs. -/
theorem scanner_not_idempotent
    (now1 now2 : Nat) (s : ServiceState)
    (h : getOverdueTasks now2 s.store = getOverdueTasks now1 s.store) :
    (OverdueTasksService.checkOverdueTasks now1 s).1.store = s.store
    ∧ (OverdueTasksService.checkOverdueTasks now2
         (OverdueTasksService.checkOverdueTasks now1 s).1).1.queue =
        s.queue ++ (getOverdueTasks now1 s.store).map OverdueTasksService.overdueNotificationJob
          ++ (getOverdueTasks now1 s.store).map OverdueTasksService.overdueNotificationJob
    ∧ (∀ t ∈ getOverdueTasks now1 s.store,
        2 ≤ ((OverdueTasksService.checkOverdueTasks now2
               (OverdueTasksService.checkOverdueTasks now1 s).1).1.queue.countP
              (fun j => decide (j = OverdueTasksService.overdueNotificationJob t)))) := by
  have hq : (OverdueTasksService.checkOverdueTasks now2
      (OverdueTasksService.checkOverdueTasks now1 s).1).1.queue =
      s.queue ++ (getOverdueTasks now1 s.store).map OverdueTasksService.overdueNotificationJob
        ++ (getOverdueTasks now1 s.store).map OverdueTasksService.overdueNotificationJob := by
    simp only [OverdueTasksService.checkOverdueTasks, h, List.append_assoc]
  refine ⟨rfl, hq, ?_⟩
  intro t ht
  rw [hq, List.countP_append, List.countP_append]
  have hone : 1 ≤ ((getOverdueTasks now1 s.store).map
      OverdueTasksService.overdueNotificationJob).countP
      (fun j => decide (j = OverdueTasksService.overdueNotificationJob t)) :=
    List.one_le_countP_iff.mpr
      ⟨OverdueTasksService.overdueNotificationJob t,
       List.mem_map_of_mem _ ht, by simp⟩
  omega

/-- C7 witness: two ticks at time 10 over a store with one overdue task
leave the store unchanged and enqueue that task's notification twice. -/
theorem scanner_not_idempotent_witness :
    (OverdueTasksService.checkOverdueTasks 10 sampleOverdueState).1.store
      = sampleOverdueState.store
    ∧ (OverdueTasksService.checkOverdueTasks 10
        (OverdueTasksService.checkOverdueTasks 10 sampleOverdueState).1).1.queue =
        sampleOverdueState.queue
          ++ (getOverdueTasks 10 sampleOverdueState.store).map
              OverdueTasksService.overdueNotificationJob
          ++ (getOverdueTasks 10 sampleOverdueState.store).map
              OverdueTasksService.overdueNotificationJob
    ∧ (∀ t ∈ getOverdueTasks 10 sampleOverdueState.store,
        2 ≤ ((OverdueTasksService.checkOverdueTasks 10
               (OverdueTasksService.checkOverdueTasks 10 sampleOverdueState).1).1.queue.countP
              (fun j => decide (j = OverdueTasksService.overdueNotificationJob t)))) :=
  scanner_not_idempotent 10 10 sampleOverdueState rfl

/-- C4: for a successful `update(id, patch)` (the task loads as `t0`), a
`task-status-update` job carrying the task id and the new status is enqueued
exactly when `patch.status` is present and differs from the prior status;
an absent or unchanged `patch.status` enqueues nothing. -/
theorem update_enqueues_iff_status_changes
    (id : String) (dto : UpdateTaskDto) (s : ServiceState) (t0 : Task)
    (h : TasksService.findOne id s.store = Except.ok t0) :
    (TasksService.update id dto s).2.queue =
      s.queue ++
        (match dto.status with
         | none => []
         | some st =>
           if st = t0.status then []
           else [{ name := "task-status-update"
                   payload := .statusUpdate t0.id st
                   opts := none }]) := by
  have happ : (TasksService.applyUpdate dto t0).status = dto.status.getD t0.status := rfl
  have hid : (TasksService.applyUpdate dto t0).id = t0.id := rfl
  unfold TasksService.update
  rw [h]
  dsimp only
  rcases hst : dto.status with _ | st
  · have hno : ¬ (t0.status ≠ (TasksService.applyUpdate dto t0).status) := by
      rw [happ, hst]
      simp
    rw [if_neg hno]
    simp
  · by_cases he : st = t0.status
    · have hno : ¬ (t0.status ≠ (TasksService.applyUpdate dto t0).status) := by
        rw [happ, hst, he]
        simp
      rw [if_neg hno]
      simp [he]
    · have hne : t0.status ≠ (TasksService.applyUpdate dto t0).status := by
        rw [happ, hst]
        simpa using Ne.symm he
      rw [if_pos hne]
      simp [happ, hst, hid, he]

/-- C4 witness: patching task `1` of the sample store to IN_PROGRESS
enqueues exactly one status-update job with the new status. -/
theorem update_enqueues_iff_status_changes_witness :
    (TasksService.update "1" { status := some .IN_PROGRESS } sampleState).2.queue =
      sampleState.queue ++
        (match ({ status := some .IN_PROGRESS } : UpdateTaskDto).status with
         | none => []
         | some st =>
           if st = sampleTask1.status then []
           else [{ name := "task-status-update"
                   payload := .statusUpdate sampleTask1.id st
                   opts := none }]) :=
  update_enqueues_iff_status_changes "1" { status := some .IN_PROGRESS }
    sampleState sampleTask1 rfl

/-- C9 counterexample: a patch whose `title` is present as `""` is NOT
applied — the guarded assignment `if (dto.title)` skips the falsy empty
string — so the persisted task keeps title `"Test Task"` instead of `""`,
refuting "each field present in patch is applied". -/
theorem update_present_empty_title_not_applied :
    ({ title := some "" } : UpdateTaskDto).title = some ""
    ∧ (TasksService.update "1" { title := some "" } sampleState).1 = Except.ok sampleTask1
    ∧ sampleTask1.title = "Test Task"
    ∧ (TasksService.update "1" { title := some "" } sampleState).2.store = sampleState.store
    ∧ ("" : String) ≠ "Test Task" :=
  ⟨rfl, rfl, rfl, rfl, by decide⟩

/-- C9 (amended): for `update(id, patch)` on an existing task, status,
priority and dueDate present in patch are applied, title and description are
applied when present and non-empty (a present empty string is skipped by the
JS truthiness guard); every other field — and every field absent from the
patch — keeps its prior value, and only the row with the given id changes in
the store; if no task with the id exists, update fails with NotFound and the
state is unchanged. -/
theorem update_patch_semantics :
    (∀ (s : ServiceState) (id : String) (dto : UpdateTaskDto) (t0 : Task),
      TasksService.findOne id s.store = Except.ok t0 →
      ∃ t, (TasksService.update id dto s).1 = Except.ok t
        ∧ t.id = t0.id
        ∧ t.userId = t0.userId
        ∧ t.title = (match dto.title with
                     | some v => if v.isEmpty then t0.title else v
                     | none => t0.title)
        ∧ t.description = (match dto.description with
                     | some v => if v.isEmpty then t0.description else some v
                     | none => t0.description)
        ∧ t.status = dto.status.getD t0.status
        ∧ t.priority = dto.priority.getD t0.priority
        ∧ t.dueDate = (match dto.dueDate with
                     | some d => some d
                     | none => t0.dueDate)
        ∧ (TasksService.update id dto s).2.store =
            s.store.map (fun u => if u.id = id then t else u))
    ∧ (∀ (s : ServiceState) (id : String) (dto : UpdateTaskDto),
        (∀ u ∈ s.store, u.id ≠ id) →
        TasksService.update id dto s =
          (Except.error ("Task with ID " ++ id ++ " not found"), s)) := by
  constructor
  · intro s id dto t0 h
    obtain ⟨hmem, hid0⟩ := findOne_ok_mem h
    refine ⟨TasksService.applyUpdate dto t0, ?_, rfl, rfl, ?_, ?_, rfl, rfl, ?_, ?_⟩
    · unfold TasksService.update
      rw [h]
    · show (if strTruthy dto.title then dto.title.getD "" else t0.title) = _
      rcases dto.title with _ | v
      · rfl
      · by_cases hv : v.isEmpty <;> simp [strTruthy, hv]
    · show (if strTruthy dto.description then dto.description else t0.description) = _
      rcases dto.description with _ | v
      · rfl
      · by_cases hv : v.isEmpty <;> simp [strTruthy, hv]
    · show (match dto.dueDate with
            | some d => some d
            | none => t0.dueDate) = _
      rcases dto.dueDate with _ | d <;> rfl
    · unfold TasksService.update
      rw [h]
      dsimp only
      have hidt : t0.id = (TasksService.applyUpdate dto t0).id := rfl
      rw [saveTask_of_mem hmem hidt]
      have : (TasksService.applyUpdate dto t0).id = id := hid0
      rw [this]
  · intro s id dto h
    unfold TasksService.update
    rw [findOne_of_absent h]

/-- C9 witness: patching task `1` of the sample store with a new title and
status applies both fields and keeps the untouched fields. -/
theorem update_patch_semantics_witness :
    ∃ t, (TasksService.update "1" { title := some "Renamed", status := some .COMPLETED }
            sampleState).1 = Except.ok t
      ∧ t.id = sampleTask1.id
      ∧ t.userId = sampleTask1.userId
      ∧ t.title = (match ({ title := some "Renamed", status := some .COMPLETED }
                     : UpdateTaskDto).title with
                   | some v => if v.isEmpty then sampleTask1.title else v
                   | none => sampleTask1.title)
      ∧ t.description = (match ({ title := some "Renamed", status := some .COMPLETED }
                     : UpdateTaskDto).description with
                   | some v => if v.isEmpty then sampleTask1.description else some v
                   | none => sampleTask1.description)
      ∧ t.status = ({ title := some "Renamed", status := some .COMPLETED }
                     : UpdateTaskDto).status.getD sampleTask1.status
      ∧ t.priority = ({ title := some "Renamed", status := some .COMPLETED }
                     : UpdateTaskDto).priority.getD sampleTask1.priority
      ∧ t.dueDate = (match ({ title := some "Renamed", status := some .COMPLETED }
                     : UpdateTaskDto).dueDate with
                   | some d => some d
                   | none => sampleTask1.dueDate)
      ∧ (TasksService.update "1" { title := some "Renamed", status := some .COMPLETED }
            sampleState).2.store =
          sampleState.store.map (fun u => if u.id = "1" then t else u) :=
  update_patch_semantics.1 sampleState "1"
    { title := some "Renamed", status := some .COMPLETED } sampleTask1 rfl

theorem taskStatusOfString_isEmpty_false {s : String} {st : TaskStatus}
    (h : taskStatusOfString s = some st) : s.isEmpty = false := by
  unfold taskStatusOfString at h
  split_ifs at h with h1 h2 h3 h4
  all_goals first
  | (subst h1; rfl)
  | (subst h2; rfl)
  | (subst h3; rfl)
  | (subst h4; rfl)

/-- C5 counterexample: a syntactically valid payload (`taskId` and `status`
present, status in the enum) whose task id is absent from the store makes
the handler raise NotFound instead of returning a success result, refuting
the unconditional "if the payload is valid ... returns a success result". -/
theorem handleStatusUpdate_valid_payload_missing_task :
    taskStatusOfString "COMPLETED" = some TaskStatus.COMPLETED
    ∧ TaskProcessorService.handleStatusUpdate
        { taskId := some "404", status := some "COMPLETED" } sampleState
      = (Except.error "Task with ID 404 not found", sampleState) :=
  ⟨rfl, rfl⟩

/-- C5 (amended): a STATUS_UPDATE payload whose `taskId` or `status` is
absent (or empty, which the JS truthiness check treats as absent) or whose
status is outside the enum makes the handler raise an error, taking the
queue's failure path; STATUS_UPDATE jobs are enqueued by the lifecycle
service with no options, so no retry policy applies and the failure is
permanent; a valid payload whose task exists yields `updateStatus` and a
success result carrying the new status (an absent task raises NotFound
instead). -/
theorem handleStatusUpdate_validation_and_success :
    (∀ (data : RawJobData) (s : ServiceState),
      (jsFalsy data.taskId = true ∨ jsFalsy data.status = true
        ∨ taskStatusOfString (data.status.getD "") = none) →
      ∃ e, TaskProcessorService.handleStatusUpdate data s = (Except.error e, s))
    ∧ (∀ (data : RawJobData) (s : ServiceState) (tid rawSt : String)
         (st : TaskStatus) (t0 : Task),
        data.taskId = some tid → tid.isEmpty = false →
        data.status = some rawSt → taskStatusOfString rawSt = some st →
        TasksService.findOne tid s.store = Except.ok t0 →
        TaskProcessorService.handleStatusUpdate data s =
          (Except.ok { success := true, taskId := some tid, newStatus := some st },
           { s with store := saveTask { t0 with status := st } s.store }))
    ∧ (∀ (newId : String) (dto : CreateTaskDto) (ok : Bool) (s : ServiceState)
         (j : EnqueuedJob), j ∈ (TasksService.create newId dto ok s).2.queue →
        j ∈ s.queue ∨ j.opts = none)
    ∧ (∀ (id : String) (dto : UpdateTaskDto) (s : ServiceState)
         (j : EnqueuedJob), j ∈ (TasksService.update id dto s).2.queue →
        j ∈ s.queue ∨ j.opts = none) := by
  refine ⟨?_, ?_, ?_, ?_⟩
  · intro data s h
    unfold TaskProcessorService.handleStatusUpdate
    cases h1 : jsFalsy data.taskId with
    | true => exact ⟨"Missing required data", by rw [if_pos (by rfl)]⟩
    | false =>
      cases h2 : jsFalsy data.status with
      | true => exact ⟨"Missing required data", by rw [if_pos (by rfl)]⟩
      | false =>
        have hn : taskStatusOfString (data.status.getD "") = none := by
          rcases h with h | h | h
          · rw [h1] at h; cases h
          · rw [h2] at h; cases h
          · exact h
        exact ⟨"Invalid status value", by rw [if_neg (by simp), hn]⟩
  · intro data s tid rawSt st t0 htid hne hst hmem hfind
    unfold TaskProcessorService.handleStatusUpdate
    have h1 : jsFalsy data.taskId = false := by rw [htid]; exact hne
    have h2 : jsFalsy data.status = false := by
      rw [hst]; exact taskStatusOfString_isEmpty_false hmem
    rw [if_neg (by rw [h1, h2]; simp)]
    rw [hst]
    dsimp only [Option.getD]
    rw [hmem]
    have hup : TasksService.updateStatus tid st s =
        (Except.ok { t0 with status := st },
         { s with store := saveTask { t0 with status := st } s.store }) := by
      unfold TasksService.updateStatus
      rw [hfind]
    rw [htid]
    dsimp only [Option.getD]
    rw [hup]
    obtain ⟨-, hid0⟩ := findOne_ok_mem hfind
    simp [hid0]
  · intro newId dto ok s j hj
    cases ok with
    | false => exact Or.inl hj
    | true =>
      rcases List.mem_append.mp hj with hj | hj
      · exact Or.inl hj
      · right
        rw [List.mem_singleton.mp hj]
  · intro id dto s j hj
    cases hf : TasksService.findOne id s.store with
    | error e =>
      unfold TasksService.update at hj
      rw [hf] at hj
      exact Or.inl hj
    | ok t0 =>
      unfold TasksService.update at hj
      rw [hf] at hj
      dsimp only at hj
      by_cases hc : t0.status ≠ (TasksService.applyUpdate dto t0).status
      · rw [if_pos hc] at hj
        rcases List.mem_append.mp hj with hj | hj
        · exact Or.inl hj
        · right
          rw [List.mem_singleton.mp hj]
      · rw [if_neg hc] at hj
        exact Or.inl hj

/-- C5 witness: a concrete malformed payload (status `BOGUS`) fails the job,
and a concrete valid payload on task `1` succeeds with the new status. -/
theorem handleStatusUpdate_validation_and_success_witness :
    (∃ e, TaskProcessorService.handleStatusUpdate
        { taskId := some "1", status := some "BOGUS" } sampleState
        = (Except.error e, sampleState))
    ∧ TaskProcessorService.handleStatusUpdate
        { taskId := some "1", status := some "IN_PROGRESS" } sampleState =
        (Except.ok { success := true, taskId := some "1",
                     newStatus := some TaskStatus.IN_PROGRESS },
         { sampleState with
             store := saveTask { sampleTask1 with status := TaskStatus.IN_PROGRESS }
               sampleState.store }) :=
  ⟨handleStatusUpdate_validation_and_success.1
      { taskId := some "1", status := some "BOGUS" } sampleState
      (Or.inr (Or.inr rfl)),
   handleStatusUpdate_validation_and_success.2.1
      { taskId := some "1", status := some "IN_PROGRESS" } sampleState
      "1" "IN_PROGRESS" TaskStatus.IN_PROGRESS sampleTask1
      rfl rfl rfl rfl rfl⟩

/-- A task already finished (COMPLETED) whose due date lies in the past. -/
def sampleCompletedLateTask : Task :=
  { id := "4", title := "Done Late", userId := "user-1",
    status := .COMPLETED, dueDate := some 3 }

/-- C8 (spec-modelled): `getOverdueTasks` returns exactly the stored tasks
whose `dueDate` is strictly before the query time — the characterization
never consults `status`, so tasks of every status qualify — and the result
is a sublist of the store: a pure read handing back stored rows unchanged,
with no write anywhere (the function maps a store to rows, producing no new
store). -/
theorem getOverdueTasks_characterization (now : Nat) (store : List Task) :
    (∀ t, t ∈ getOverdueTasks now store ↔
      t ∈ store ∧ ∃ d, t.dueDate = some d ∧ d < now)
    ∧ List.Sublist (getOverdueTasks now store) store := by
  constructor
  · intro t
    unfold getOverdueTasks
    rw [List.mem_filter]
    constructor
    · rintro ⟨ht, hp⟩
      refine ⟨ht, ?_⟩
      cases hd : t.dueDate with
      | none => rw [hd] at hp; cases hp
      | some d => rw [hd] at hp; exact ⟨d, rfl, of_decide_eq_true hp⟩
    · rintro ⟨ht, d, hd, hlt⟩
      exact ⟨ht, by rw [hd]; exact decide_eq_true hlt⟩
  · exact List.filter_sublist _

/-- C8 witness: a COMPLETED task three ms past due is returned by the
overdue query at time 10. -/
theorem getOverdueTasks_characterization_witness :
    sampleCompletedLateTask ∈ getOverdueTasks 10 [sampleTask1, sampleCompletedLateTask] :=
  ((getOverdueTasks_characterization 10 [sampleTask1, sampleCompletedLateTask]).1
    sampleCompletedLateTask).mpr ⟨by simp, 3, rfl, by omega⟩

theorem mem_foundIds_iff {store : List Task} {ids : List String} {i : String} :
    i ∈ foundIds store ids ↔ (∃ t ∈ store, t.id = i) ∧ i ∈ ids := by
  unfold foundIds foundTasks
  simp only [List.mem_map, List.mem_filter, decide_eq_true_eq]
  constructor
  · rintro ⟨t, ⟨ht, hin⟩, rfl⟩
    exact ⟨⟨t, ht, rfl⟩, hin⟩
  · rintro ⟨⟨t, ht, rfl⟩, hin⟩
    exact ⟨t, ⟨ht, hin⟩, rfl⟩

theorem foundIds_nodup {store : List Task} {ids : List String}
    (hstore : (store.map Task.id).Nodup) : (foundIds store ids).Nodup := by
  have hsub : List.Sublist (foundIds store ids) (store.map Task.id) :=
    (List.filter_sublist store).map Task.id
  exact hsub.nodup hstore

theorem countP_eq_count_string (i : String) (l : List String) :
    l.countP (fun j => decide (j = i)) = l.count i := by
  rw [List.count_eq_countP]
  exact List.countP_congr (fun x _ => by simp)

/-- The per-id outcome count of a not-found block followed by a per-found-task
block whose outcomes keep the task's id: one outcome per requested id. -/
theorem batch_shape_countP (store : List Task) (ids : List String)
    (mk : Task → BatchOutcome) (hmk : ∀ t, (mk t).taskId = t.id)
    (hids : ids.Nodup) (hstore : (store.map Task.id).Nodup) (i : String) :
    ((notFoundOutcomes store ids ++ (foundTasks store ids).map mk).countP
       (fun o => decide (o.taskId = i))) = if i ∈ ids then 1 else 0 := by
  rw [List.countP_append]
  have hnf : (notFoundOutcomes store ids).countP (fun o => decide (o.taskId = i))
      = (ids.filter (fun j => decide (j ∉ foundIds store ids))).count i := by
    unfold notFoundOutcomes
    rw [List.countP_map, ← countP_eq_count_string]
    exact List.countP_congr (fun j _ => by simp [Function.comp])
  have hfd : ((foundTasks store ids).map mk).countP (fun o => decide (o.taskId = i))
      = (foundIds store ids).count i := by
    unfold foundIds
    rw [← countP_eq_count_string, List.countP_map, List.countP_map]
    exact List.countP_congr (fun t _ => by simp [Function.comp, hmk])
  rw [hnf, hfd]
  by_cases hmem : i ∈ ids
  · rw [if_pos hmem]
    by_cases hfound : i ∈ foundIds store ids
    · have h1 : (ids.filter (fun j => decide (j ∉ foundIds store ids))).count i = 0 := by
        rw [List.count_eq_zero]
        intro hc
        exact absurd hfound (of_decide_eq_true (List.mem_filter.mp hc).2)
      have h2 : (foundIds store ids).count i = 1 :=
        List.count_eq_one_of_mem (foundIds_nodup hstore) hfound
      omega
    · have h1 : (ids.filter (fun j => decide (j ∉ foundIds store ids))).count i = 1 :=
        List.count_eq_one_of_mem (hids.filter _)
          (List.mem_filter.mpr ⟨hmem, decide_eq_true hfound⟩)
      have h2 : (foundIds store ids).count i = 0 := List.count_eq_zero.mpr hfound
      omega
  · rw [if_neg hmem]
    have h1 : (ids.filter (fun j => decide (j ∉ foundIds store ids))).count i = 0 := by
      rw [List.count_eq_zero]
      intro hc
      exact hmem (List.mem_filter.mp hc).1
    have h2 : (foundIds store ids).count i = 0 := by
      rw [List.count_eq_zero]
      intro hc
      exact hmem (mem_foundIds_iff.mp hc).2
    omega

/-- Keeping only outcomes whose task id is absent from the store leaves
exactly the not-found block, whatever per-found-task outcomes follow it. -/
theorem batch_filter_not_in_store (store : List Task) (ids : List String)
    (mk : Task → BatchOutcome) (hmk : ∀ t, (mk t).taskId = t.id) :
    (notFoundOutcomes store ids ++ (foundTasks store ids).map mk).filter
      (fun o => decide (o.taskId ∉ store.map Task.id)) = notFoundOutcomes store ids := by
  rw [List.filter_append]
  have h1 : (notFoundOutcomes store ids).filter
      (fun o => decide (o.taskId ∉ store.map Task.id)) = notFoundOutcomes store ids := by
    apply List.filter_eq_self.mpr
    intro o ho
    unfold notFoundOutcomes at ho
    obtain ⟨j, hj, rfl⟩ := List.mem_map.mp ho
    have hj1 := (List.mem_filter.mp hj).1
    have hj2 := of_decide_eq_true (List.mem_filter.mp hj).2
    apply decide_eq_true
    intro hmem
    obtain ⟨t, ht, hid⟩ := List.mem_map.mp hmem
    exact hj2 (mem_foundIds_iff.mpr ⟨⟨t, ht, hid⟩, hj1⟩)
  have h2 : ((foundTasks store ids).map mk).filter
      (fun o => decide (o.taskId ∉ store.map Task.id)) = [] := by
    apply List.filter_eq_nil_iff.mpr
    intro o ho
    obtain ⟨t, ht, rfl⟩ := List.mem_map.mp ho
    have htm : t ∈ store := (List.mem_filter.mp ht).1
    simp only [hmk, decide_eq_true_eq, not_not]
    exact List.mem_map_of_mem Task.id htm
  rw [h1, h2, List.append_nil]

/-- C1 (spec-modelled): a batch call that returns yields exactly one outcome
per requested id — whether or not the bulk write failed — with
`{success:false, error:'Task not found'}` for every id absent from the
store, and, when the bulk write succeeds, `{success:true}` with
`'Task marked as completed'` or `'Task deleted'` for every found id. -/
theorem batchProcess_one_outcome_per_id
    (s : ServiceState) (ids : List String) (action : BatchAction) (uid : String)
    (hids : ids.Nodup) (hstore : (s.store.map Task.id).Nodup) :
    (∀ (bulkError : Option String) (i : String),
       ((batchProcess ids action uid bulkError s).1.countP
          (fun o => decide (o.taskId = i))) = if i ∈ ids then 1 else 0)
    ∧ (∀ (bulkError : Option String), ∀ i ∈ ids, (∀ t ∈ s.store, t.id ≠ i) →
        ({ taskId := i, success := false, result := none,
           error := some "Task not found" } : BatchOutcome)
          ∈ (batchProcess ids action uid bulkError s).1)
    ∧ (∀ t ∈ s.store, t.id ∈ ids →
        ({ taskId := t.id, success := true,
           result := some (successMessage action), error := none } : BatchOutcome)
          ∈ (batchProcess ids action uid none s).1) := by
  refine ⟨?_, ?_, ?_⟩
  · intro berr i
    cases berr with
    | some e => exact batch_shape_countP s.store ids _ (fun t => rfl) hids hstore i
    | none => exact batch_shape_countP s.store ids _ (fun t => rfl) hids hstore i
  · intro berr i hi hnot
    have hnf : i ∈ ids.filter (fun j => decide (j ∉ foundIds s.store ids)) := by
      refine List.mem_filter.mpr ⟨hi, decide_eq_true ?_⟩
      intro hf
      obtain ⟨⟨t, ht, hid⟩, -⟩ := mem_foundIds_iff.mp hf
      exact hnot t ht hid
    have hmemnf : ({ taskId := i
                     success := false
                     result := none
                     error := some "Task not found" } : BatchOutcome)
        ∈ notFoundOutcomes s.store ids :=
      List.mem_map.mpr ⟨i, hnf, rfl⟩
    cases berr with
    | some e => exact List.mem_append_left _ hmemnf
    | none => exact List.mem_append_left _ hmemnf
  · intro t ht hin
    have hf : t ∈ foundTasks s.store ids :=
      List.mem_filter.mpr ⟨ht, decide_eq_true hin⟩
    exact List.mem_append_right _ (List.mem_map.mpr ⟨t, hf, rfl⟩)

/-- C1 witness: requesting ids 1, 2, 3 over the two-task sample store gives
exactly one outcome for the missing id 3. -/
theorem batchProcess_one_outcome_per_id_witness :
    ((batchProcess ["1", "2", "3"] .complete "user-1" none sampleState).1.countP
       (fun o => decide (o.taskId = "3"))) = if "3" ∈ ["1", "2", "3"] then 1 else 0 :=
  (batchProcess_one_outcome_per_id sampleState ["1", "2", "3"] .complete "user-1"
    (by decide) (by decide)).1 none "3"

/-- C2 (spec-modelled): when the single bulk write throws with message `e`,
every found id receives `{success:false, error: e}` — every outcome of the
call is a failure and the store is untouched (all-or-nothing) — while the
not-found outcomes, computed before the write, are exactly those of a
successful run. -/
theorem batchProcess_bulk_failure_all_or_nothing
    (s : ServiceState) (ids : List String) (action : BatchAction) (uid e : String) :
    (∀ t ∈ s.store, t.id ∈ ids →
       ({ taskId := t.id, success := false, result := none,
          error := some e } : BatchOutcome)
         ∈ (batchProcess ids action uid (some e) s).1)
    ∧ (∀ o ∈ (batchProcess ids action uid (some e) s).1, o.success = false)
    ∧ ((batchProcess ids action uid (some e) s).1.filter
         (fun o => decide (o.taskId ∉ s.store.map Task.id))
       = (batchProcess ids action uid none s).1.filter
         (fun o => decide (o.taskId ∉ s.store.map Task.id)))
    ∧ (batchProcess ids action uid (some e) s).2 = s := by
  have hsome : (batchProcess ids action uid (some e) s).1 =
      notFoundOutcomes s.store ids ++ (foundTasks s.store ids).map
        (fun t => { taskId := t.id, success := false, error := some e }) := rfl
  have hnone : (batchProcess ids action uid none s).1 =
      notFoundOutcomes s.store ids ++ (foundTasks s.store ids).map
        (fun t => { taskId := t.id, success := true,
                    result := some (successMessage action) }) := rfl
  refine ⟨?_, ?_, ?_, rfl⟩
  · intro t ht hin
    have hf : t ∈ foundTasks s.store ids :=
      List.mem_filter.mpr ⟨ht, decide_eq_true hin⟩
    rw [hsome]
    exact List.mem_append_right _ (List.mem_map.mpr ⟨t, hf, rfl⟩)
  · intro o ho
    rw [hsome] at ho
    rcases List.mem_append.mp ho with ho | ho
    · obtain ⟨j, -, rfl⟩ := List.mem_map.mp ho
      rfl
    · obtain ⟨t, -, rfl⟩ := List.mem_map.mp ho
      rfl
  · rw [hsome, hnone, batch_filter_not_in_store s.store ids _ (fun t => rfl),
        batch_filter_not_in_store s.store ids _ (fun t => rfl)]

/-- C2 witness: with task 1 found and the bulk write failing with message
`X`, the sole outcome is `{taskId:'1', success:false, error:'X'}`. -/
theorem batchProcess_bulk_failure_all_or_nothing_witness :
    ({ taskId := "1", success := false, result := none,
       error := some "X" } : BatchOutcome)
      ∈ (batchProcess ["1"] .complete "user-1" (some "X") sampleState).1 :=
  (batchProcess_bulk_failure_all_or_nothing sampleState ["1"] .complete "user-1" "X").1
    sampleTask1 (by simp [sampleState]) (by simp [sampleTask1])

end TaskFlow
